import Mathlib

/-!
Verification development for the billing and collections backend (KKiumbe/API).

The settlement engine, invoice allocator and mobile-money ingestion loop are
shallowly embedded below.  Monetary amounts are modelled as integers (`Int`):
every amount appearing in the settlement arithmetic of the source is handled
exactly, and the claims under study are exact-arithmetic claims.  JavaScript
strings are modelled as `List Char`; store tables are Lean lists; the Prisma
auto-generated ids are modelled as positions in those lists.  Randomness
(receipt-number digits) is threaded explicitly as `List Nat` draw streams.
-/

/-- Invoice status enum from prisma/schema.prisma (InvoiceStatus). -/
inductive InvoiceStatus where
  | UNPAID
  | PAID
  | PPAID
  | CANCELLED
deriving DecidableEq, Repr

/-- Customer record, restricted to the fields the settlement engine reads
(schema.prisma, model Customer). -/
structure Customer where
  id : Nat
  phoneNumber : List Char
  closingBalance : Int
deriving DecidableEq, Repr

/-- Invoice record, restricted to the fields the settlement engine reads
(schema.prisma, model Invoice).  createdAt is modelled as a Nat timestamp. -/
structure Invoice where
  id : Nat
  customerId : Nat
  invoiceAmount : Int
  amountPaid : Int
  status : InvoiceStatus
  createdAt : Nat
deriving DecidableEq, Repr

/-- Payment record (schema.prisma, model Payment).  transactionId models the
unique TransactionId column linking a payment to a raw mpesa transaction;
ref models the Ref column holding the BillRefNumber. -/
structure Payment where
  id : Nat
  amount : Int
  receipted : Bool
  transactionId : Option (List Char)
  ref : Option (List Char)
  receiptId : Option Nat
deriving DecidableEq, Repr

/-- Receipt record (schema.prisma, model Receipt).  invoiceLinks models the
receiptInvoices join rows created together with the receipt: each entry is
the invoiceId of one ReceiptInvoice row (none models invoiceId = null). -/
structure Receipt where
  receiptNumber : String
  amount : Int
  paymentId : Option Nat
  customerId : Option Nat
  invoiceLinks : List (Option Nat)
deriving DecidableEq, Repr

/-- Raw mobile-money transaction (schema.prisma, model MpesaTransaction),
restricted to the fields the ingestion loop reads. -/
structure MpesaTransaction where
  id : Nat
  transID : List Char
  transAmount : Int
  billRefNumber : List Char
  processed : Bool
deriving DecidableEq, Repr

/-- The ledger store: the tables the settlement engine touches. -/
structure Store where
  customers : List Customer
  invoices : List Invoice
  payments : List Payment
  receipts : List Receipt
  mpesaTransactions : List MpesaTransaction
deriving DecidableEq, Repr

/-- Ordering of invoices by creation time, used by the orderBy createdAt asc
fetches. -/
def createdAtLe (a b : Invoice) : Prop := a.createdAt ≤ b.createdAt

instance : DecidableRel createdAtLe :=
  fun a b => inferInstanceAs (Decidable (a.createdAt ≤ b.createdAt))

instance : IsTotal Invoice createdAtLe :=
  ⟨fun a b => Nat.le_total a.createdAt b.createdAt⟩

instance : IsTrans Invoice createdAtLe :=
  ⟨fun _ _ _ hab hbc => Nat.le_trans hab hbc⟩

/-- Model of a Prisma orderBy createdAt asc fetch result ordering. -/
def sortByCreatedAt (l : List Invoice) : List Invoice :=
  List.insertionSort createdAtLe l

/-- Result of one run of the per-invoice settlement loop: the invoices the
loop updated (in visit order), the fetched invoices it never visited
(because it broke out), the (invoiceId, paymentForInvoice) pair of each
visited invoice, and the remaining amount when the loop ended. -/
structure LoopResult where
  updated : List Invoice
  untouched : List Invoice
  steps : List (Nat × Int)
  remaining : Int
deriving DecidableEq, Repr

/-- The per-invoice settlement loop shared verbatim by every settlement path
of the source (for example controller/mpesa/paymentSettlement.js lines
171-187 and controller/receipting/MpesaPaymentSettlement.js lines 68-101):
break once remainingAmount <= 0, invoiceDue = invoiceAmount - amountPaid,
paymentForInvoice = min(remainingAmount, invoiceDue), amountPaid increases
by paymentForInvoice, status becomes PAID when the new amountPaid reaches
invoiceAmount and otherwise partialStatus (PPAID in the mpesa settlement
paths, UNPAID in manualReceipting.js and manualCashPayment.js). -/
def settleLoop (partialStatus : InvoiceStatus) : Int → List Invoice → LoopResult
  | remaining, [] => ⟨[], [], [], remaining⟩
  | remaining, inv :: rest =>
    if remaining ≤ 0 then ⟨[], inv :: rest, [], remaining⟩
    else
      let invoiceDue := inv.invoiceAmount - inv.amountPaid
      let paymentForInvoice := min remaining invoiceDue
      let newAmountPaid := inv.amountPaid + paymentForInvoice
      let inv' : Invoice := { inv with
        amountPaid := newAmountPaid
        status := if inv.invoiceAmount ≤ newAmountPaid then .PAID else partialStatus }
      let r := settleLoop partialStatus (remaining - paymentForInvoice) rest
      ⟨inv' :: r.updated, r.untouched, (inv.id, paymentForInvoice) :: r.steps, r.remaining⟩

/-- Modelled from the spec: the reference Invoice Allocator of spec section
4.1 (walk the list oldest first, due = invoiceAmount - amountPaid, apply
min(remaining, due), stop walking once remaining == 0, return the leftover
as the remainder).  Used only to compare the code's allocation loop against
the specified allocator. -/
def specAllocate : Int → List Invoice → List (Nat × Int) × Int
  | remaining, [] => ([], remaining)
  | remaining, inv :: rest =>
    if remaining = 0 then ([], remaining)
    else
      let due := inv.invoiceAmount - inv.amountPaid
      let applied := min remaining due
      let r := specAllocate (remaining - applied) rest
      ((inv.id, applied) :: r.1, r.2)

/-- The invoice invariant asserted by the claim: bounds on amountPaid and
status a pure function of amountPaid versus invoiceAmount. -/
def invariantOK (inv : Invoice) : Prop :=
  0 ≤ inv.amountPaid ∧ inv.amountPaid ≤ inv.invoiceAmount ∧
  (inv.status = .PAID ↔ inv.invoiceAmount ≤ inv.amountPaid) ∧
  (inv.status = .PPAID ↔ 0 < inv.amountPaid ∧ inv.amountPaid < inv.invoiceAmount) ∧
  (inv.status = .UNPAID ↔ inv.amountPaid = 0)

instance (inv : Invoice) : Decidable (invariantOK inv) := by
  unfold invariantOK
  infer_instance

/-- Outstanding status: the statuses the settlement fetches select. -/
def outstandingStatus (inv : Invoice) : Prop :=
  inv.status = .UNPAID ∨ inv.status = .PPAID

/-- Total amount still due on a list of invoices. -/
def totalDue (l : List Invoice) : Int :=
  (l.map fun inv => inv.invoiceAmount - inv.amountPaid).sum

/-- Store helper: prisma customer.update of closingBalance by customer id. -/
def updateCustomerBalance (st : Store) (customerId : Nat) (newBalance : Int) : Store :=
  { st with customers := st.customers.map fun c =>
      if c.id == customerId then { c with closingBalance := newBalance } else c }

/-- Store helper: prisma payment.update setting receipted = true by id. -/
def updatePaymentReceipted (st : Store) (paymentId : Nat) : Store :=
  { st with payments := st.payments.map fun p =>
      if p.id == paymentId then { p with receipted := true } else p }

/-- Store helper: prisma payment.update setting receiptId by id. -/
def updatePaymentReceiptId (st : Store) (paymentId : Nat) (receiptId : Option Nat) : Store :=
  { st with payments := st.payments.map fun p =>
      if p.id == paymentId then { p with receiptId := receiptId } else p }

/-- Store helper: the tx.invoice.update calls of a settlement loop, writing
each updated invoice back over the row with the same id. -/
def writeBackInvoices (st : Store) (updated : List Invoice) : Store :=
  { st with invoices := st.invoices.map fun inv =>
      match updated.find? fun u => u.id == inv.id with
      | some u => u
      | none => inv }

/-- Store helper: prisma customer.findUnique select closingBalance. -/
def customerBalance (st : Store) (customerId : Nat) : Int :=
  ((st.customers.find? fun c => c.id == customerId).map Customer.closingBalance).getD 0

/-- Fetch of controller/mpesa/paymentSettlement.js lines 138-146 and
controller/receipting/MpesaPaymentSettlement.js lines 57-60: invoices of the
customer with status UNPAID or PPAID, ordered by createdAt ascending. -/
def outstandingFetch (st : Store) (customerId : Nat) : List Invoice :=
  sortByCreatedAt (st.invoices.filter fun inv =>
    inv.customerId == customerId && (inv.status == .UNPAID || inv.status == .PPAID))

namespace MpesaIngestion

/-- generateUniqueReceiptNumber of controller/mpesa/paymentSettlement.js
lines 5-18: draw random digits, build RCPT + digits, query the receipt
table, and redraw while the number already exists.  The unbounded while
loop is modelled by recursion over the stream of random draws; none models
the (probability-zero) run that exhausts the stream. -/
def generateUniqueReceiptNumber (existing : List String) : List Nat → Option String
  | [] => none
  | d :: ds =>
    let receiptNumber := "RCPT" ++ Nat.repr d
    if receiptNumber ∈ existing then generateUniqueReceiptNumber existing ds
    else some receiptNumber

/-- Result record of processInvoices (controller/mpesa/paymentSettlement.js
lines 137-205): the receiptInvoices rows to create (invoiceId or null), the
returned remainingAmount, and the newClosingBalance it read back. -/
structure ProcessResult where
  receipts : List (Option Nat)
  remainingAmount : Int
  newClosingBalance : Int
deriving DecidableEq, Repr

/-- processInvoices of controller/mpesa/paymentSettlement.js lines 137-205
(the transactional variant): fetch UNPAID or PPAID invoices oldest first,
mark the payment receipted, and either (empty fetch) return one null
receipt link with the full amount as remainingAmount, or run the settlement
loop, append a null receipt link and zero out remainingAmount when an
overpayment remains.  newClosingBalance is read from the customer row
(already decremented by the caller before this function runs). -/
def processInvoices (st : Store) (paymentAmount : Int) (customerId paymentId : Nat) :
    Store × ProcessResult :=
  let invoices := outstandingFetch st customerId
  let st1 := updatePaymentReceipted st paymentId
  if invoices.isEmpty then
    (st1, { receipts := [none], remainingAmount := paymentAmount,
            newClosingBalance := customerBalance st1 customerId })
  else
    let L := settleLoop .PPAID paymentAmount invoices
    let st2 := writeBackInvoices st1 L.updated
    let newClosingBalance := customerBalance st2 customerId
    if 0 < L.remaining then
      (st2, { receipts := L.steps.map (fun s => some s.1) ++ [none],
              remainingAmount := 0, newClosingBalance := newClosingBalance })
    else
      (st2, { receipts := L.steps.map fun s => some s.1,
              remainingAmount := L.remaining, newClosingBalance := newClosingBalance })

/-- Processing of one raw mpesa transaction by the ingestion loop of
controller/mpesa/paymentSettlement.js lines 31-131: skip non-positive
amounts, skip transactions already ingested (a payment with this
TransactionId exists), create an unattached Payment (receipted = false, no
customer link) when no customer phone number matches the BillRefNumber, and
otherwise deduct the amount from the closing balance, create the payment,
run processInvoices, create the receipt carrying the receiptInvoices rows,
and point the payment at the receipt.  The receipt number draws are passed
in explicitly.  Note the function never updates mpesaTransaction.processed
(the dedup relies on the TransactionId check). -/
def processTransaction (draws : List Nat) (st : Store) (t : MpesaTransaction) : Store :=
  let paymentAmount := t.transAmount
  if paymentAmount ≤ 0 then st
  else if st.payments.any fun p => p.transactionId == some t.transID then st
  else
    match st.customers.find? fun c => c.phoneNumber == t.billRefNumber with
    | none =>
      { st with payments := st.payments ++
          [{ id := st.payments.length, amount := paymentAmount, receipted := false,
             transactionId := some t.transID, ref := some t.billRefNumber,
             receiptId := none }] }
    | some customer =>
      let receiptNumber :=
        (generateUniqueReceiptNumber (st.receipts.map Receipt.receiptNumber) draws).getD "RCPT"
      let st1 := updateCustomerBalance st customer.id (customer.closingBalance - paymentAmount)
      let paymentId := st1.payments.length
      let st2 := { st1 with payments := st1.payments ++
          [{ id := paymentId, amount := paymentAmount, receipted := false,
             transactionId := some t.transID, ref := some t.billRefNumber,
             receiptId := none }] }
      let pr := processInvoices st2 paymentAmount customer.id paymentId
      let receiptRow : Receipt :=
        ⟨receiptNumber, paymentAmount, some paymentId, some customer.id, pr.2.receipts⟩
      let receiptRowId := pr.1.receipts.length
      let st3 := { pr.1 with receipts := pr.1.receipts ++ [receiptRow] }
      updatePaymentReceiptId st3 paymentId (some receiptRowId)

/-- The for loop of settleInvoice (controller/mpesa/paymentSettlement.js
lines 31-131).  Store operations that throw are modelled by the oracle
throws, at transaction granularity: a throwing transaction aborts the loop
before its writes.  The Bool records whether an error escaped the loop. -/
def settleInvoiceLoop (draws : List Nat) (throws : MpesaTransaction → Bool) :
    Store → List MpesaTransaction → Store × Bool
  | st, [] => (st, false)
  | st, t :: rest =>
    if throws t then (st, true)
    else settleInvoiceLoop draws throws (processTransaction draws st t) rest

/-- settleInvoice of controller/mpesa/paymentSettlement.js lines 20-135: the
whole sweep over unprocessed transactions runs inside one try/catch whose
catch only logs, so the call always returns normally with whatever state
the loop reached. -/
def settleInvoice (draws : List Nat) (throws : MpesaTransaction → Bool) (st : Store) : Store :=
  (settleInvoiceLoop draws throws st (st.mpesaTransactions.filter fun t => !t.processed)).1

/-- sanitizePhoneNumber of controller/mpesa/paymentSettlement.js lines
207-222 (same function in manualCashPayment.js lines 250-265): +254... has
its + stripped, 0... has the 0 replaced by 254, 254... passes through, and
anything else gets 254 prepended.  The typeof guard for non-strings is
outside the model. -/
def sanitizePhoneNumber : List Char → List Char
  | '+' :: '2' :: '5' :: '4' :: rest => '2' :: '5' :: '4' :: rest
  | '0' :: rest => '2' :: '5' :: '4' :: rest
  | '2' :: '5' :: '4' :: rest => '2' :: '5' :: '4' :: rest
  | phone => '2' :: '5' :: '4' :: phone

end MpesaIngestion

namespace BulkSms

/-- sanitizePhoneNumber of controller/bulkSMS/sendSMS.js lines 137-145:
254... passes through, 0... has the 0 replaced by 254, and anything else
(including +254...) gets 254 prepended; there is no branch for a leading +. -/
def sanitizePhoneNumber : List Char → List Char
  | '2' :: '5' :: '4' :: rest => '2' :: '5' :: '4' :: rest
  | '0' :: rest => '2' :: '5' :: '4' :: rest
  | phone => '2' :: '5' :: '4' :: phone

end BulkSms

namespace Receipting

/-- generateReceiptNumber of controller/receipting/MpesaPaymentSettlement.js
lines 11-14, manualReceipting.js lines 5-8 and manualCashPayment.js lines
120-123: RCPT followed by the drawn digits, returned without any store
lookup. -/
def generateReceiptNumber (randomDigits : Nat) : String :=
  "RCPT" ++ Nat.repr randomDigits

/-- Outcome of the receipting entry points: the error responses (404 for a
missing customer or payment, 400 for an already receipted payment) and the
success payload (receipts, updatedInvoices, newClosingBalance). -/
inductive SettlementResult where
  | customerNotFound
  | paymentNotFound
  | alreadyReceipted
  | ok (receipts : List Receipt) (updatedInvoices : List Invoice) (newClosingBalance : Int)
deriving DecidableEq, Repr

/-- Observer: whether a settlement call succeeded. -/
def SettlementResult.isOk : SettlementResult → Bool
  | .ok _ _ _ => true
  | _ => false

/-- Observer: the receipts of a successful settlement call. -/
def SettlementResult.receiptsOf : SettlementResult → List Receipt
  | .ok receipts _ _ => receipts
  | _ => []

/-- The receipt rows created inside the settlement loop of the receipting
paths (controller/receipting/MpesaPaymentSettlement.js lines 86-99): one
receipt per visited invoice, carrying that invoice's paymentForInvoice as
amount and a freshly drawn receipt number, with no invoice link. -/
def stepReceipts (customerId paymentId : Nat) : List Nat → List (Nat × Int) → List Receipt
  | _, [] => []
  | ds, s :: ss =>
    { receiptNumber := generateReceiptNumber (ds.headD 0), amount := s.2,
      paymentId := some paymentId, customerId := some customerId, invoiceLinks := [] }
      :: stepReceipts customerId paymentId ds.tail ss

/-- MpesaPaymentSettlement of controller/receipting/MpesaPaymentSettlement.js
lines 16-158: load customer (404), load payment (404), reject an already
receipted payment (400), mark the payment receipted, run the settlement
loop with PPAID over the UNPAID or PPAID invoices oldest first, create one
receipt per allocation plus one unmatched receipt for any remaining amount,
and persist newClosingBalance = closingBalance - payment.amount.
Abstraction: receipt.create is modelled as an append; the store's unique
receiptNumber constraint (schema.prisma, spec section 6) and its error path
are not modelled, so this embedding is used to decide balances, invoice
updates and receipt contents, never uniqueness-violation behaviour, and no
concrete theorem below evaluates it at a draw colliding with an existing
receipt number. -/
def MpesaPaymentSettlement (st : Store) (customerId paymentId : Nat) (draws : List Nat) :
    Store × SettlementResult :=
  match st.customers.find? fun c => c.id == customerId with
  | none => (st, .customerNotFound)
  | some customer =>
    match st.payments.find? fun p => p.id == paymentId with
    | none => (st, .paymentNotFound)
    | some payment =>
      if payment.receipted then (st, .alreadyReceipted)
      else
        let totalAmount := payment.amount
        let st1 := updatePaymentReceipted st paymentId
        let invoices := outstandingFetch st1 customerId
        let L := settleLoop .PPAID totalAmount invoices
        let st2 := writeBackInvoices st1 L.updated
        let invoiceReceipts := stepReceipts customerId paymentId draws L.steps
        let st3 := { st2 with receipts := st2.receipts ++ invoiceReceipts }
        if 0 < L.remaining then
          let unmatched : Receipt :=
            { receiptNumber := generateReceiptNumber ((draws.drop L.steps.length).headD 0),
              amount := L.remaining, paymentId := some paymentId,
              customerId := some customerId, invoiceLinks := [] }
          let st4 := { st3 with receipts := st3.receipts ++ [unmatched] }
          let finalClosingBalance := customer.closingBalance - totalAmount
          (updateCustomerBalance st4 customerId finalClosingBalance,
           .ok (invoiceReceipts ++ [unmatched]) L.updated finalClosingBalance)
        else
          let finalClosingBalance := customer.closingBalance - totalAmount
          (updateCustomerBalance st3 customerId finalClosingBalance,
           .ok invoiceReceipts L.updated finalClosingBalance)

/-- The invoice fetch of manualReceipt (manualReceipting.js lines 29-31):
UNPAID invoices of the customer, fetched with no orderBy clause, so the
walk happens in store order. -/
def manualReceiptFetch (st : Store) (customerId : Nat) : List Invoice :=
  st.invoices.filter fun inv => inv.customerId == customerId && inv.status == .UNPAID

/-- The per-allocation payment and receipt rows created by manualReceipt
(manualReceipting.js lines 90-142): one Payment (receipted = true) and one
Receipt per visited invoice, each carrying that invoice's paymentForInvoice. -/
def manualStepRows (customerId firstPaymentId : Nat) :
    List Nat → List (Nat × Int) → List Payment × List Receipt
  | _, [] => ([], [])
  | ds, s :: ss =>
    let rest := manualStepRows customerId (firstPaymentId + 1) ds.tail ss
    (⟨firstPaymentId, s.2, true, none, none, none⟩ :: rest.1,
     { receiptNumber := generateReceiptNumber (ds.headD 0), amount := s.2,
       paymentId := some firstPaymentId, customerId := some customerId,
       invoiceLinks := [] } :: rest.2)

/-- manualReceipt of controller/receipting/manualReceipting.js lines 10-180:
load customer (404); with no UNPAID invoices create one payment and one
receipt for the whole amount and set closingBalance = closingBalance -
totalAmount; otherwise run the settlement loop (partial invoices are set
back to UNPAID, line 104), create one payment and one receipt per
allocation, and in every branch persist closingBalance = closingBalance -
totalAmount. -/
def manualReceipt (st : Store) (customerId : Nat) (totalAmount : Int) (draws : List Nat) :
    Store × SettlementResult :=
  match st.customers.find? fun c => c.id == customerId with
  | none => (st, .customerNotFound)
  | some customer =>
    let invoices := manualReceiptFetch st customerId
    if invoices.isEmpty then
      let newClosingBalance := customer.closingBalance - totalAmount
      let paymentId := st.payments.length
      let st1 := { st with payments := st.payments ++
          [(⟨paymentId, totalAmount, true, none, none, none⟩ : Payment)] }
      let receipt : Receipt :=
        ⟨generateReceiptNumber (draws.headD 0), totalAmount, some paymentId,
         some customerId, []⟩
      let st2 := { st1 with receipts := st1.receipts ++ [receipt] }
      (updateCustomerBalance st2 customerId newClosingBalance,
       .ok [receipt] [] newClosingBalance)
    else
      let L := settleLoop .UNPAID totalAmount invoices
      let st1 := writeBackInvoices st L.updated
      let rows := manualStepRows customerId st.payments.length draws L.steps
      let st2 := { st1 with payments := st1.payments ++ rows.1 }
      let st3 := { st2 with receipts := st2.receipts ++ rows.2 }
      let newClosingBalance := customer.closingBalance - totalAmount
      (updateCustomerBalance st3 customerId newClosingBalance,
       .ok rows.2 L.updated newClosingBalance)

/-- manualCashPayment of controller/receipting/manualCashPayment.js lines
125-248: load customer (404), create the payment record, fetch UNPAID
invoices oldest first, run the settlement loop (partial invoices are set
back to UNPAID, line 176), create one receipt per allocation; then lines
201-226: start from finalClosingBalance = closingBalance and subtract only
the overpayment remainder (the amount allocated to invoices is never
deducted), creating one extra receipt for the remainder when positive. -/
def manualCashPayment (st : Store) (customerId : Nat) (totalAmount : Int) (draws : List Nat) :
    Store × SettlementResult :=
  match st.customers.find? fun c => c.id == customerId with
  | none => (st, .customerNotFound)
  | some customer =>
    let paymentId := st.payments.length
    let st1 := { st with payments := st.payments ++
        [(⟨paymentId, totalAmount, false, none, none, none⟩ : Payment)] }
    let invoices := sortByCreatedAt (st1.invoices.filter fun inv =>
        inv.customerId == customerId && inv.status == .UNPAID)
    let L := settleLoop .UNPAID totalAmount invoices
    let st2 := writeBackInvoices st1 L.updated
    let invoiceReceipts := stepReceipts customerId paymentId draws L.steps
    let st3 := { st2 with receipts := st2.receipts ++ invoiceReceipts }
    if 0 < L.remaining then
      let finalClosingBalance := customer.closingBalance - L.remaining
      let overpaymentReceipt : Receipt :=
        { receiptNumber := generateReceiptNumber ((draws.drop L.steps.length).headD 0),
          amount := L.remaining, paymentId := some paymentId,
          customerId := some customerId, invoiceLinks := [] }
      let st4 := { st3 with receipts := st3.receipts ++ [overpaymentReceipt] }
      (updateCustomerBalance st4 customerId finalClosingBalance,
       .ok (invoiceReceipts ++ [overpaymentReceipt]) L.updated finalClosingBalance)
    else
      let finalClosingBalance := customer.closingBalance
      (updateCustomerBalance st3 customerId finalClosingBalance,
       .ok invoiceReceipts L.updated finalClosingBalance)

end Receipting

/-! ## Store projection lemmas -/

@[simp] theorem updateCustomerBalance_invoices (st : Store) (cid : Nat) (b : Int) :
    (updateCustomerBalance st cid b).invoices = st.invoices := rfl

@[simp] theorem updateCustomerBalance_receipts (st : Store) (cid : Nat) (b : Int) :
    (updateCustomerBalance st cid b).receipts = st.receipts := rfl

@[simp] theorem updateCustomerBalance_mpesaTransactions (st : Store) (cid : Nat) (b : Int) :
    (updateCustomerBalance st cid b).mpesaTransactions = st.mpesaTransactions := rfl

@[simp] theorem updatePaymentReceipted_invoices (st : Store) (pid : Nat) :
    (updatePaymentReceipted st pid).invoices = st.invoices := rfl

@[simp] theorem updatePaymentReceipted_customers (st : Store) (pid : Nat) :
    (updatePaymentReceipted st pid).customers = st.customers := rfl

@[simp] theorem updatePaymentReceipted_receipts (st : Store) (pid : Nat) :
    (updatePaymentReceipted st pid).receipts = st.receipts := rfl

@[simp] theorem writeBackInvoices_customers (st : Store) (updated : List Invoice) :
    (writeBackInvoices st updated).customers = st.customers := rfl

@[simp] theorem writeBackInvoices_receipts (st : Store) (updated : List Invoice) :
    (writeBackInvoices st updated).receipts = st.receipts := rfl

@[simp] theorem outstandingFetch_updatePaymentReceipted (st : Store) (pid cid : Nat) :
    outstandingFetch (updatePaymentReceipted st pid) cid = outstandingFetch st cid := rfl

/-! ## Settlement loop lemmas -/

/-- Starting the loop with nothing remaining leaves nothing remaining. -/
theorem settleLoop_zero_remaining (ps : InvoiceStatus) (l : List Invoice) :
    (settleLoop ps 0 l).remaining = 0 := by
  cases l <;> simp [settleLoop]

/-- The remaining amount never becomes negative. -/
theorem settleLoop_remaining_nonneg (ps : InvoiceStatus) (l : List Invoice) :
    ∀ r : Int, 0 ≤ r → 0 ≤ (settleLoop ps r l).remaining := by
  induction l with
  | nil => intro r hr; simpa [settleLoop] using hr
  | cons inv rest ih =>
    intro r hr
    by_cases h : r ≤ 0
    · simpa [settleLoop, h] using hr
    · have hnn : 0 ≤ r - min r (inv.invoiceAmount - inv.amountPaid) :=
        sub_nonneg.mpr (min_le_left _ _)
      simpa [settleLoop, h] using ih _ hnn

/-- The applied amounts and the final remaining amount always add back up to
the starting amount. -/
theorem settleLoop_steps_sum (ps : InvoiceStatus) (l : List Invoice) :
    ∀ r : Int,
      ((settleLoop ps r l).steps.map Prod.snd).sum + (settleLoop ps r l).remaining = r := by
  induction l with
  | nil => intro r; simp [settleLoop]
  | cons inv rest ih =>
    intro r
    by_cases h : r ≤ 0
    · simp [settleLoop, h]
    · have := ih (r - min r (inv.invoiceAmount - inv.amountPaid))
      simp only [settleLoop, if_neg h, List.map_cons, List.sum_cons]
      omega

/-- When the starting amount is covered by the total due, the loop consumes
it completely. -/
theorem settleLoop_remaining_eq_zero (ps : InvoiceStatus) (l : List Invoice) :
    ∀ r : Int, 0 ≤ r → r ≤ totalDue l → (settleLoop ps r l).remaining = 0 := by
  induction l with
  | nil =>
    intro r hr hle
    have : r = 0 := le_antisymm (by simpa [totalDue] using hle) hr
    simp [settleLoop, this]
  | cons inv rest ih =>
    intro r hr hle
    by_cases h : r ≤ 0
    · simp [settleLoop, h, le_antisymm h hr]
    · by_cases hmin : r ≤ inv.invoiceAmount - inv.amountPaid
      · have : min r (inv.invoiceAmount - inv.amountPaid) = r := min_eq_left hmin
        simp [settleLoop, h, this, settleLoop_zero_remaining]
      · have hdue : inv.invoiceAmount - inv.amountPaid ≤ r := le_of_not_le hmin
        have hm : min r (inv.invoiceAmount - inv.amountPaid) =
            inv.invoiceAmount - inv.amountPaid := min_eq_right hdue
        have htot : totalDue (inv :: rest) =
            (inv.invoiceAmount - inv.amountPaid) + totalDue rest := by
          simp [totalDue]
        have hrec := ih (r - (inv.invoiceAmount - inv.amountPaid)) (by omega) (by omega)
        simpa [settleLoop, h, hm] using hrec

/-- The loop's steps and final remaining amount coincide with the reference
allocator of the spec whenever the starting amount is non-negative. -/
theorem settleLoop_eq_specAllocate (ps : InvoiceStatus) (l : List Invoice) :
    ∀ r : Int, 0 ≤ r →
      (settleLoop ps r l).steps = (specAllocate r l).1 ∧
      (settleLoop ps r l).remaining = (specAllocate r l).2 := by
  induction l with
  | nil => intro r hr; simp [settleLoop, specAllocate]
  | cons inv rest ih =>
    intro r hr
    by_cases h : r ≤ 0
    · have h0 : r = 0 := le_antisymm h hr
      subst h0
      simp [settleLoop, specAllocate]
    · have hne : r ≠ 0 := fun he => h (le_of_eq he)
      have hnn : 0 ≤ r - min r (inv.invoiceAmount - inv.amountPaid) :=
        sub_nonneg.mpr (min_le_left _ _)
      have hrec := ih (r - min r (inv.invoiceAmount - inv.amountPaid)) hnn
      simp only [settleLoop, specAllocate, if_neg h, if_neg hne]
      exact ⟨by rw [hrec.1], hrec.2⟩

/-- Invoices the loop never visited come from the input list. -/
theorem settleLoop_mem_untouched (ps : InvoiceStatus) (l : List Invoice) :
    ∀ r : Int, ∀ inv' ∈ (settleLoop ps r l).untouched, inv' ∈ l := by
  induction l with
  | nil => intro r inv' h; simp [settleLoop] at h
  | cons inv rest ih =>
    intro r inv' h
    by_cases hb : r ≤ 0
    · simp only [settleLoop, if_pos hb] at h
      exact h
    · simp only [settleLoop, if_neg hb] at h
      exact List.mem_cons_of_mem _ (ih _ _ h)

/-- Case analysis for the invoice record written back by one loop iteration. -/
theorem updatedInvoice_props (ps : InvoiceStatus) (hps : ps ≠ .PAID)
    (amt paid pay : Int) (h0 : 0 ≤ paid) (hpay : 0 < pay) (hle : pay ≤ amt - paid) :
    0 ≤ paid + pay ∧ paid + pay ≤ amt ∧ 0 < paid + pay ∧
      ((if amt ≤ paid + pay then InvoiceStatus.PAID else ps) = .PAID ↔ amt ≤ paid + pay) ∧
      (paid + pay < amt → (if amt ≤ paid + pay then InvoiceStatus.PAID else ps) = ps) ∧
      ((if amt ≤ paid + pay then InvoiceStatus.PAID else ps) = .PAID ∨
        (if amt ≤ paid + pay then InvoiceStatus.PAID else ps) = ps) := by
  by_cases hfull : amt ≤ paid + pay
  · refine ⟨by omega, by omega, by omega, by simp [hfull], ?_, by simp [hfull]⟩
    intro hlt
    exact absurd hfull (by omega)
  · refine ⟨by omega, by omega, by omega, ?_, ?_, ?_⟩
    · constructor
      · intro hp
        rw [if_neg hfull] at hp
        exact absurd hp hps
      · intro hle2
        exact absurd hle2 hfull
    · intro hlt
      rw [if_neg hfull]
    · right
      rw [if_neg hfull]

/-- Properties of every invoice the loop wrote back, given a partial status
other than PAID and a well-formed outstanding input list. -/
theorem settleLoop_mem_updated (ps : InvoiceStatus) (hps : ps ≠ .PAID) (l : List Invoice)
    (hl : ∀ inv ∈ l, invariantOK inv ∧ outstandingStatus inv) :
    ∀ r : Int, ∀ inv' ∈ (settleLoop ps r l).updated,
      0 ≤ inv'.amountPaid ∧ inv'.amountPaid ≤ inv'.invoiceAmount ∧ 0 < inv'.amountPaid ∧
      (inv'.status = .PAID ↔ inv'.invoiceAmount ≤ inv'.amountPaid) ∧
      (inv'.amountPaid < inv'.invoiceAmount → inv'.status = ps) ∧
      (inv'.status = .PAID ∨ inv'.status = ps) := by
  induction l with
  | nil => intro r inv' h; simp [settleLoop] at h
  | cons inv rest ih =>
    intro r inv' h
    by_cases hb : r ≤ 0
    · simp [settleLoop, hb] at h
    · simp only [settleLoop, if_neg hb] at h
      obtain ⟨hOK, hOut⟩ := hl inv (List.mem_cons_self inv rest)
      obtain ⟨h0, h1, hPA, hPP, hUN⟩ := hOK
      have hr : 0 < r := lt_of_not_le hb
      have hdue : 0 < inv.invoiceAmount - inv.amountPaid := by
        rcases hOut with hu | hp
        · have hpz : inv.amountPaid = 0 := hUN.mp hu
          have : ¬ inv.invoiceAmount ≤ inv.amountPaid := fun hle =>
            by simp [hPA.mpr hle] at hu
          omega
        · have := hPP.mp hp
          omega
      have hpay : 0 < min r (inv.invoiceAmount - inv.amountPaid) := lt_min hr hdue
      have hpayle : min r (inv.invoiceAmount - inv.amountPaid) ≤
          inv.invoiceAmount - inv.amountPaid := min_le_right _ _
      rcases List.mem_cons.mp h with rfl | h2
      · simpa using updatedInvoice_props ps hps inv.invoiceAmount inv.amountPaid
          (min r (inv.invoiceAmount - inv.amountPaid)) h0 hpay hpayle
      · exact ih (fun i hi => hl i (List.mem_cons_of_mem _ hi)) _ inv' h2

/-- Full invariant for an invoice produced by a PPAID settlement loop. -/
theorem invariantOK_of_loopProps (inv' : Invoice)
    (h0 : 0 ≤ inv'.amountPaid) (h1 : inv'.amountPaid ≤ inv'.invoiceAmount)
    (hpos : 0 < inv'.amountPaid)
    (hPA : inv'.status = .PAID ↔ inv'.invoiceAmount ≤ inv'.amountPaid)
    (himp : inv'.amountPaid < inv'.invoiceAmount → inv'.status = .PPAID)
    (hor : inv'.status = .PAID ∨ inv'.status = .PPAID) :
    invariantOK inv' := by
  refine ⟨h0, h1, hPA, ?_, ?_⟩
  · constructor
    · intro hpp
      have hne : ¬ inv'.invoiceAmount ≤ inv'.amountPaid := fun hle => by
        have := hPA.mpr hle
        rw [this] at hpp
        exact absurd hpp (by simp)
      exact ⟨hpos, by omega⟩
    · intro h
      exact himp h.2
  · constructor
    · intro hun
      rcases hor with h | h <;> rw [hun] at h <;> simp at h
    · intro hz
      omega

/-! ## Fetch and store lemmas -/

/-- Every invoice fetched by outstandingFetch is a well-formed outstanding
invoice of the store, provided the store's invoices are well-formed. -/
theorem outstandingFetch_mem (st : Store) (cid : Nat)
    (hinv : ∀ inv ∈ st.invoices, invariantOK inv) :
    ∀ inv ∈ outstandingFetch st cid, invariantOK inv ∧ outstandingStatus inv := by
  intro inv h
  unfold outstandingFetch sortByCreatedAt at h
  have h2 := (List.perm_insertionSort createdAtLe _).mem_iff.mp h
  rw [List.mem_filter] at h2
  refine ⟨hinv _ h2.1, ?_⟩
  have := h2.2
  simp only [Bool.and_eq_true, Bool.or_eq_true, beq_iff_eq] at this
  exact this.2

/-- Every invoice fetched by manualReceiptFetch is a well-formed UNPAID
invoice of the store, provided the store's invoices are well-formed. -/
theorem manualReceiptFetch_mem (st : Store) (cid : Nat)
    (hinv : ∀ inv ∈ st.invoices, invariantOK inv) :
    ∀ inv ∈ Receipting.manualReceiptFetch st cid, invariantOK inv ∧ outstandingStatus inv := by
  intro inv h
  unfold Receipting.manualReceiptFetch at h
  rw [List.mem_filter] at h
  refine ⟨hinv _ h.1, ?_⟩
  have := h.2
  simp only [Bool.and_eq_true, beq_iff_eq] at this
  exact Or.inl this.2

/-- Every invoice of a store after a write-back is either one of the written
invoices or an untouched original. -/
theorem writeBackInvoices_mem (st : Store) (updated : List Invoice) :
    ∀ inv' ∈ (writeBackInvoices st updated).invoices,
      inv' ∈ updated ∨ inv' ∈ st.invoices := by
  intro inv' h
  simp only [writeBackInvoices, List.mem_map] at h
  obtain ⟨inv, hmem, heq⟩ := h
  cases hfind : updated.find? fun u => u.id == inv.id with
  | none =>
    rw [hfind] at heq
    exact Or.inr (heq ▸ hmem)
  | some u =>
    rw [hfind] at heq
    exact Or.inl (heq ▸ List.mem_of_find?_eq_some hfind)

/-- The amounts on the receipts created for the allocation steps are exactly
the applied amounts of those steps. -/
theorem stepReceipts_map_amount (customerId paymentId : Nat) :
    ∀ (steps : List (Nat × Int)) (ds : List Nat),
      (Receipting.stepReceipts customerId paymentId ds steps).map Receipt.amount =
        steps.map Prod.snd := by
  intro steps
  induction steps with
  | nil => intro ds; simp [Receipting.stepReceipts]
  | cons s ss ih => intro ds; simp [Receipting.stepReceipts, ih]

/-- A sweep whose first throwing transaction is t resolves with the state
reached just before t; the transactions after t are not processed. -/
theorem settleInvoiceLoop_append_throws (draws : List Nat)
    (throws : MpesaTransaction → Bool) (pre : List MpesaTransaction) :
    ∀ (st : Store) (t : MpesaTransaction) (rest : List MpesaTransaction),
      (∀ u ∈ pre, throws u = false) → throws t = true →
      MpesaIngestion.settleInvoiceLoop draws throws st (pre ++ t :: rest) =
        (pre.foldl (MpesaIngestion.processTransaction draws) st, true) := by
  induction pre with
  | nil =>
    intro st t rest _ ht
    simp [MpesaIngestion.settleInvoiceLoop, ht]
  | cons u us ih =>
    intro st t rest hpre ht
    have hu : throws u = false := hpre u (List.mem_cons_self u us)
    simp only [List.cons_append, MpesaIngestion.settleInvoiceLoop, hu]
    simpa using ih _ t rest (fun v hv => hpre v (List.mem_cons_of_mem _ hv)) ht

/-! ## Claim C2 -/

/-- C2: calling the settlement entry point again for a Payment whose
receipted flag is already true fails with the AlreadySettled error (the 400
already-receipted response of MpesaPaymentSettlement) and returns the store
unchanged, so no invoice, receipt or closing balance is mutated a second
time. -/
theorem c2_already_receipted_is_noop (st : Store) (customerId paymentId : Nat)
    (draws : List Nat) (cust : Customer) (pay : Payment)
    (hc : (st.customers.find? fun c => c.id == customerId) = some cust)
    (hp : (st.payments.find? fun p => p.id == paymentId) = some pay)
    (hr : pay.receipted = true) :
    Receipting.MpesaPaymentSettlement st customerId paymentId draws =
      (st, .alreadyReceipted) := by
  unfold Receipting.MpesaPaymentSettlement
  simp [hc, hp, hr]

def stC2 : Store :=
  ⟨[⟨1, ['0', '7'], 1000⟩], [⟨1, 1, 1000, 0, .UNPAID, 1⟩],
   [⟨1, 600, true, none, none, none⟩], [], []⟩

/-- Witness for C2: a concrete already-receipted payment. -/
theorem c2_already_receipted_is_noop_witness :
    Receipting.MpesaPaymentSettlement stC2 1 1 [11111] = (stC2, .alreadyReceipted) :=
  c2_already_receipted_is_noop stC2 1 1 [11111] ⟨1, ['0', '7'], 1000⟩
    ⟨1, 600, true, none, none, none⟩ (by decide) (by decide) rfl

/-! ## Claim C1 -/

def stC1 : Store :=
  ⟨[⟨1, ['0', '7'], 1000⟩], [⟨1, 1, 1000, 0, .UNPAID, 1⟩], [], [], []⟩

/-- C1: the manualCashPayment settlement path persists closingBalance minus
only the unallocated remainder instead of closingBalance minus the full
amount: settling 600 against a customer with closing balance 1000 and one
UNPAID invoice of 1000 succeeds but leaves the stored balance at 1000
instead of the required 1000 - 600 = 400. -/
theorem c1_manualCashPayment_balance_bug :
    (Receipting.manualCashPayment stC1 1 600 [11111]).2.isOk = true ∧
    customerBalance (Receipting.manualCashPayment stC1 1 600 [11111]).1 1 = 1000 ∧
    customerBalance stC1 1 - 600 = 400 ∧ (1000 : Int) ≠ 400 := by
  refine ⟨by decide, by decide, by decide, by decide⟩

/-! ## Claim C7 -/

def stC7 : Store :=
  ⟨[⟨1, ['0', '1'], 500⟩], [], [], [], [⟨1, ['T', '1'], 300, ['9', '9'], false⟩]⟩

/-- C7 counterexample: ingesting a raw transaction whose BillRefNumber
matches no customer creates the unattached payment and completes the sweep,
but the raw transaction is left with processed = false; the claim demands it
be marked processed. -/
theorem c7_counterexample :
    (MpesaIngestion.settleInvoice [11111] (fun _ => false) stC7).payments =
      [⟨0, 300, false, some ['T', '1'], some ['9', '9'], none⟩] ∧
    (MpesaIngestion.settleInvoice [11111] (fun _ => false) stC7).mpesaTransactions =
      [⟨1, ['T', '1'], 300, ['9', '9'], false⟩] ∧
    (⟨1, ['T', '1'], 300, ['9', '9'], false⟩ : MpesaTransaction).processed = false := by
  refine ⟨by decide, by decide, rfl⟩

/-- C7 amended: for a raw transaction with positive amount, not yet ingested
and matching no customer, processTransaction appends exactly one unattached
Payment (receipted = false, no customer link, carrying the transaction id
and BillRefNumber), changes nothing else, leaves the raw transaction table
(and in particular its processed flag) untouched, and the ingestion loop
continues with the next transaction. -/
theorem c7_unmatched_transaction_amended (draws : List Nat) (st : Store)
    (t : MpesaTransaction) (hpos : 0 < t.transAmount)
    (hdup : (st.payments.any fun p => p.transactionId == some t.transID) = false)
    (hcust : (st.customers.find? fun c => c.phoneNumber == t.billRefNumber) = none) :
    MpesaIngestion.processTransaction draws st t =
      { st with payments := st.payments ++
          [{ id := st.payments.length, amount := t.transAmount, receipted := false,
             transactionId := some t.transID, ref := some t.billRefNumber,
             receiptId := none }] } ∧
    (MpesaIngestion.processTransaction draws st t).mpesaTransactions =
      st.mpesaTransactions ∧
    ∀ (throws : MpesaTransaction → Bool) (rest : List MpesaTransaction),
      throws t = false →
      MpesaIngestion.settleInvoiceLoop draws throws st (t :: rest) =
        MpesaIngestion.settleInvoiceLoop draws throws
          (MpesaIngestion.processTransaction draws st t) rest := by
  have hmain : MpesaIngestion.processTransaction draws st t =
      { st with payments := st.payments ++
          [{ id := st.payments.length, amount := t.transAmount, receipted := false,
             transactionId := some t.transID, ref := some t.billRefNumber,
             receiptId := none }] } := by
    unfold MpesaIngestion.processTransaction
    simp [hcust, hdup, not_le.mpr hpos]
  refine ⟨hmain, by rw [hmain], ?_⟩
  intro throws rest ht
  simp [MpesaIngestion.settleInvoiceLoop, ht]

/-- Witness for the amended C7 at the concrete unmatched transaction. -/
theorem c7_unmatched_transaction_amended_witness :
    MpesaIngestion.processTransaction [11111] stC7 ⟨1, ['T', '1'], 300, ['9', '9'], false⟩ =
      { stC7 with payments := stC7.payments ++
          [{ id := stC7.payments.length, amount := 300, receipted := false,
             transactionId := some ['T', '1'], ref := some ['9', '9'],
             receiptId := none }] } :=
  (c7_unmatched_transaction_amended [11111] stC7 ⟨1, ['T', '1'], 300, ['9', '9'], false⟩
    (by decide) (by decide) (by decide)).1

/-! ## Claim C8 -/

/-- C8 counterexample: the bulkSMS sanitizer does not map the +254 form to
the canonical output it produces for the 0 form of the same number: it
prepends 254 to the whole +254... string. -/
theorem c8_counterexample :
    BulkSms.sanitizePhoneNumber ['+', '2', '5', '4', '7', '1', '2'] =
      ['2', '5', '4', '+', '2', '5', '4', '7', '1', '2'] ∧
    BulkSms.sanitizePhoneNumber ['0', '7', '1', '2'] = ['2', '5', '4', '7', '1', '2'] ∧
    ['2', '5', '4', '+', '2', '5', '4', '7', '1', '2'] ≠
      (['2', '5', '4', '7', '1', '2'] : List Char) := by
  refine ⟨rfl, rfl, by decide⟩

/-- C8 amended: the mpesa-side sanitizer maps all three input formats of one
number (local 0..., international +254..., bare 254...) to the identical
canonical 254... output for every suffix; the bulkSMS sanitizer does so only
for the 0-prefixed and bare formats, having no branch for a leading +. -/
theorem c8_sanitize_amended :
    (∀ rest : List Char,
      MpesaIngestion.sanitizePhoneNumber ('0' :: rest) = '2' :: '5' :: '4' :: rest ∧
      MpesaIngestion.sanitizePhoneNumber ('+' :: '2' :: '5' :: '4' :: rest) =
        '2' :: '5' :: '4' :: rest ∧
      MpesaIngestion.sanitizePhoneNumber ('2' :: '5' :: '4' :: rest) =
        '2' :: '5' :: '4' :: rest) ∧
    (∀ rest : List Char,
      BulkSms.sanitizePhoneNumber ('0' :: rest) = '2' :: '5' :: '4' :: rest ∧
      BulkSms.sanitizePhoneNumber ('2' :: '5' :: '4' :: rest) = '2' :: '5' :: '4' :: rest) := by
  constructor
  · intro rest
    exact ⟨rfl, rfl, rfl⟩
  · intro rest
    exact ⟨rfl, rfl⟩

/-! ## Claim C9 -/

def stC9 : Store :=
  ⟨[⟨1, ['0', '7'], 100⟩], [], [⟨1, 50, false, none, none, none⟩],
   [⟨"RCPT12345", 20, none, some 1, []⟩], []⟩

/-- C9 counterexample: the generator of the receipting settlement paths
performs no store lookup and does not regenerate on collision.  With
RCPT12345 already among the store's receipt numbers, the draw 12345 makes
generateReceiptNumber produce exactly that existing number for use, whereas
the checking ingestion-path generator given the same store and draws
rejects it and redraws a fresh number. -/
theorem c9_counterexample :
    Receipting.generateReceiptNumber 12345 = "RCPT12345" ∧
    "RCPT12345" ∈ stC9.receipts.map Receipt.receiptNumber ∧
    Receipting.generateReceiptNumber 12345 ∈ stC9.receipts.map Receipt.receiptNumber ∧
    MpesaIngestion.generateUniqueReceiptNumber
      (stC9.receipts.map Receipt.receiptNumber) [12345, 67890] = some "RCPT67890" ∧
    "RCPT67890" ≠ "RCPT12345" := by
  refine ⟨rfl, by decide, by decide, by decide, by decide⟩

/-- C9 amended: every generated receipt number has the form RCPT followed by
the decimal digits drawn.  The mpesa-ingestion generator checks each
candidate against the store and redraws on collision, so a number it
returns is never already present.  The receipting-path generator performs
no store lookup and returns the drawn number unchanged, so on a colliding
draw the number it supplies for the receipt is already present in the
store; such a duplicate is stopped only by the store's unique receiptNumber
constraint failing the create, not by the generator. -/
theorem c9_receipt_numbers_amended :
    (∀ (existing : List String) (ds : List Nat) (r : String),
      MpesaIngestion.generateUniqueReceiptNumber existing ds = some r →
      r ∉ existing ∧ ∃ d ∈ ds, r = "RCPT" ++ Nat.repr d) ∧
    (∀ d : Nat, Receipting.generateReceiptNumber d = "RCPT" ++ Nat.repr d) ∧
    (∀ (existing : List String) (d : Nat),
      ("RCPT" ++ Nat.repr d) ∈ existing →
      Receipting.generateReceiptNumber d ∈ existing) := by
  refine ⟨?_, ?_, ?_⟩
  · intro existing ds
    induction ds with
    | nil => intro r h; simp [MpesaIngestion.generateUniqueReceiptNumber] at h
    | cons d rest ih =>
      intro r h
      by_cases hmem : ("RCPT" ++ Nat.repr d) ∈ existing
      · simp only [MpesaIngestion.generateUniqueReceiptNumber, if_pos hmem] at h
        obtain ⟨h1, d2, hd2, he⟩ := ih r h
        exact ⟨h1, d2, List.mem_cons_of_mem _ hd2, he⟩
      · simp only [MpesaIngestion.generateUniqueReceiptNumber, if_neg hmem] at h
        obtain rfl := Option.some.inj h
        exact ⟨hmem, d, List.mem_cons_self d rest, rfl⟩
  · intro d
    rfl
  · intro existing d h
    exact h

/-- Witness for the amended C9: the checking generator skips a colliding
draw and returns the next fresh number. -/
theorem c9_receipt_numbers_amended_witness :
    MpesaIngestion.generateUniqueReceiptNumber ["RCPT1"] [1, 2] = some "RCPT2" ∧
    "RCPT2" ∉ (["RCPT1"] : List String) :=
  ⟨by decide, (c9_receipt_numbers_amended.1 ["RCPT1"] [1, 2] "RCPT2" (by decide)).1⟩

/-! ## Claim C10 -/

/-- C10: the exported ingestion entry point settleInvoice catches every
error raised while processing a transaction: decomposing the unprocessed
sweep as pre ++ t :: rest where processing throws at t, the call still
returns normally, with the state reached by the transactions before t, and
the transactions after t are not processed in that sweep. -/
theorem c10_settleInvoice_never_rejects (draws : List Nat)
    (throws : MpesaTransaction → Bool) (st : Store)
    (pre : List MpesaTransaction) (t : MpesaTransaction) (rest : List MpesaTransaction)
    (hfilter : st.mpesaTransactions.filter (fun u => !u.processed) = pre ++ t :: rest)
    (hpre : ∀ u ∈ pre, throws u = false) (ht : throws t = true) :
    MpesaIngestion.settleInvoice draws throws st =
      pre.foldl (MpesaIngestion.processTransaction draws) st := by
  unfold MpesaIngestion.settleInvoice
  rw [hfilter, settleInvoiceLoop_append_throws draws throws pre st t rest hpre ht]

def stC10 : Store :=
  ⟨[], [], [], [], [⟨1, ['T', '2'], 100, ['8'], false⟩]⟩

/-- Witness for C10: a sweep whose very first transaction throws resolves
normally with the untouched store. -/
theorem c10_settleInvoice_never_rejects_witness :
    MpesaIngestion.settleInvoice [1] (fun _ => true) stC10 = stC10 :=
  c10_settleInvoice_never_rejects [1] (fun _ => true) stC10 []
    ⟨1, ['T', '2'], 100, ['8'], false⟩ [] (by decide) (by simp) rfl

/-! ## Claim C4 -/

def stC4 : Store :=
  ⟨[⟨1, ['0', '7'], 2000⟩],
   [⟨2, 1, 1000, 0, .UNPAID, 2⟩, ⟨1, 1, 1000, 0, .UNPAID, 1⟩], [], [], []⟩

/-- C4 counterexample: manualReceipt fetches with no ordering clause and
allocates to the invoice stored first (createdAt 2) instead of the oldest
(createdAt 1); the oldest-first reference allocator assigns the whole
amount to invoice 1, so the per-invoice applied amounts differ. -/
theorem c4_counterexample :
    (Receipting.manualReceipt stC4 1 600 [11111, 22222]).1.invoices =
      [⟨2, 1, 1000, 600, .UNPAID, 2⟩, ⟨1, 1, 1000, 0, .UNPAID, 1⟩] ∧
    (settleLoop .UNPAID 600 (Receipting.manualReceiptFetch stC4 1)).steps = [(2, 600)] ∧
    (specAllocate 600 (sortByCreatedAt (Receipting.manualReceiptFetch stC4 1))).1 =
      [(1, 600)] ∧
    [((2 : Nat), (600 : Int))] ≠ [(1, 600)] := by
  refine ⟨by decide, by decide, by decide, by decide⟩

/-- C4 amended: the outstanding fetch used by the mpesa settlement paths is
sorted ascending by createdAt; every settlement loop produces exactly the
per-invoice applied amounts and remainder of the spec's reference allocator
(apply min(remaining, due) to each invoice, stop once remaining reaches
zero); and manualReceipt computes that same fold over its unordered fetch
(store order, not oldest-first). -/
theorem c4_allocation_amended :
    (∀ (st : Store) (cid : Nat), List.Sorted createdAtLe (outstandingFetch st cid)) ∧
    (∀ (ps : InvoiceStatus) (l : List Invoice) (r : Int), 0 ≤ r →
      (settleLoop ps r l).steps = (specAllocate r l).1 ∧
      (settleLoop ps r l).remaining = (specAllocate r l).2) ∧
    (∀ (st : Store) (cid : Nat) (amount : Int), 0 ≤ amount →
      (settleLoop .UNPAID amount (Receipting.manualReceiptFetch st cid)).steps =
        (specAllocate amount (Receipting.manualReceiptFetch st cid)).1) := by
  refine ⟨?_, ?_, ?_⟩
  · intro st cid
    exact List.sorted_insertionSort createdAtLe _
  · intro ps l r hr
    exact settleLoop_eq_specAllocate ps l r hr
  · intro st cid amount h
    exact (settleLoop_eq_specAllocate .UNPAID _ amount h).1

/-- Witness for the amended C4 at a concrete amount and fetch. -/
theorem c4_allocation_amended_witness :
    (settleLoop .PPAID 600 (Receipting.manualReceiptFetch stC4 1)).steps =
      (specAllocate 600 (Receipting.manualReceiptFetch stC4 1)).1 :=
  (c4_allocation_amended.2.1 .PPAID (Receipting.manualReceiptFetch stC4 1) 600
    (by decide)).1

/-! ## Claim C5 -/

/-- C5: settling a payment for a customer with no outstanding invoices
leaves the full amount as the remainder and creates exactly one unattached
receipt: processInvoices returns remainingAmount equal to the amount with a
single null invoice link, and MpesaPaymentSettlement succeeds with exactly
one receipt appended, carrying the full amount and no invoice link. -/
theorem c5_empty_invoices (st : Store) (cid pid : Nat) (draws : List Nat)
    (cust : Customer) (pay : Payment)
    (hc : (st.customers.find? fun c => c.id == cid) = some cust)
    (hp : (st.payments.find? fun p => p.id == pid) = some pay)
    (hnr : pay.receipted = false) (hpos : 0 < pay.amount)
    (hempty : outstandingFetch st cid = []) :
    (MpesaIngestion.processInvoices st pay.amount cid pid).2.remainingAmount = pay.amount ∧
    (MpesaIngestion.processInvoices st pay.amount cid pid).2.receipts = [none] ∧
    (Receipting.MpesaPaymentSettlement st cid pid draws).2 =
      .ok [⟨Receipting.generateReceiptNumber (draws.headD 0), pay.amount,
            some pid, some cid, []⟩] [] (cust.closingBalance - pay.amount) ∧
    (Receipting.MpesaPaymentSettlement st cid pid draws).1.receipts =
      st.receipts ++ [⟨Receipting.generateReceiptNumber (draws.headD 0), pay.amount,
            some pid, some cid, []⟩] := by
  refine ⟨?_, ?_, ?_, ?_⟩
  · simp [MpesaIngestion.processInvoices, hempty]
  · simp [MpesaIngestion.processInvoices, hempty]
  · unfold Receipting.MpesaPaymentSettlement
    simp [hc, hp, hnr, hempty, hpos, settleLoop, Receipting.stepReceipts]
  · unfold Receipting.MpesaPaymentSettlement
    simp [hc, hp, hnr, hempty, hpos, settleLoop, Receipting.stepReceipts, writeBackInvoices]

def stC5 : Store :=
  ⟨[⟨1, ['0', '7'], 1000⟩], [], [⟨1, 600, false, none, none, none⟩], [], []⟩

/-- Witness for C5 at a concrete store with no invoices. -/
theorem c5_empty_invoices_witness :
    (Receipting.MpesaPaymentSettlement stC5 1 1 [12345]).2 =
      .ok [⟨Receipting.generateReceiptNumber 12345, 600, some 1, some 1, []⟩] [] 400 :=
  (c5_empty_invoices stC5 1 1 [12345] ⟨1, ['0', '7'], 1000⟩
    ⟨1, 600, false, none, none, none⟩ (by decide) (by decide) rfl (by decide)
    (by decide)).2.2.1

/-! ## Claim C6 -/

/-- C6: when the payment amount is at most the total due of the outstanding
invoices, the settlement loop consumes it fully (remainder 0, and
processInvoices returns remainingAmount 0), and the receipts created by the
settlement sum exactly to the payment amount. -/
theorem c6_full_absorption (st : Store) (cid pid : Nat) (draws : List Nat)
    (cust : Customer) (pay : Payment)
    (hc : (st.customers.find? fun c => c.id == cid) = some cust)
    (hp : (st.payments.find? fun p => p.id == pid) = some pay)
    (hnr : pay.receipted = false) (hpos : 0 < pay.amount)
    (hle : pay.amount ≤ totalDue (outstandingFetch st cid)) :
    ((Receipting.MpesaPaymentSettlement st cid pid draws).2.receiptsOf.map
        Receipt.amount).sum = pay.amount ∧
    (settleLoop .PPAID pay.amount (outstandingFetch st cid)).remaining = 0 ∧
    (MpesaIngestion.processInvoices st pay.amount cid pid).2.remainingAmount = 0 := by
  have hrem : (settleLoop .PPAID pay.amount (outstandingFetch st cid)).remaining = 0 :=
    settleLoop_remaining_eq_zero .PPAID _ pay.amount (le_of_lt hpos) hle
  have hsum := settleLoop_steps_sum .PPAID (outstandingFetch st cid) pay.amount
  refine ⟨?_, hrem, ?_⟩
  · unfold Receipting.MpesaPaymentSettlement
    simp only [hc, hp, hnr, Bool.false_eq_true, if_false,
      outstandingFetch_updatePaymentReceipted, hrem, lt_irrefl, if_false]
    simp [Receipting.SettlementResult.receiptsOf, stepReceipts_map_amount]
    omega
  · unfold MpesaIngestion.processInvoices
    by_cases he : outstandingFetch st cid = []
    · exfalso
      rw [he] at hle
      simp [totalDue] at hle
      omega
    · simp [he, hrem]

def stC6 : Store :=
  ⟨[⟨1, ['0', '7'], 1000⟩], [⟨1, 1, 1000, 0, .UNPAID, 1⟩],
   [⟨1, 600, false, none, none, none⟩], [], []⟩

/-- Witness for C6 at a concrete fully-absorbed payment. -/
theorem c6_full_absorption_witness :
    ((Receipting.MpesaPaymentSettlement stC6 1 1 [12345]).2.receiptsOf.map
        Receipt.amount).sum = 600 :=
  (c6_full_absorption stC6 1 1 [12345] ⟨1, ['0', '7'], 1000⟩
    ⟨1, 600, false, none, none, none⟩ (by decide) (by decide) rfl (by decide)
    (by decide)).1

/-! ## Claim C3 -/

/-- The invoice table after a receipting mpesa settlement of an unreceipted
payment is the write-back of the PPAID settlement loop over the outstanding
fetch. -/
theorem MpesaPaymentSettlement_invoices (st : Store) (cid pid : Nat) (draws : List Nat)
    (cust : Customer) (pay : Payment)
    (hc : (st.customers.find? fun c => c.id == cid) = some cust)
    (hp : (st.payments.find? fun p => p.id == pid) = some pay)
    (hnr : pay.receipted = false) :
    (Receipting.MpesaPaymentSettlement st cid pid draws).1.invoices =
      (writeBackInvoices (updatePaymentReceipted st pid)
        (settleLoop .PPAID pay.amount (outstandingFetch st cid)).updated).invoices := by
  unfold Receipting.MpesaPaymentSettlement
  by_cases h0 : 0 < (settleLoop .PPAID pay.amount (outstandingFetch st cid)).remaining
  · simp [hc, hp, hnr, h0]
  · simp [hc, hp, hnr, h0]

/-- The invoice table after manualReceipt is either unchanged (missing
customer, or no UNPAID invoices) or the write-back of the UNPAID settlement
loop over the unordered fetch. -/
theorem manualReceipt_invoices (st : Store) (cid : Nat) (amount : Int) (draws : List Nat) :
    (Receipting.manualReceipt st cid amount draws).1.invoices = st.invoices ∨
    (Receipting.manualReceipt st cid amount draws).1.invoices =
      (writeBackInvoices st
        (settleLoop .UNPAID amount (Receipting.manualReceiptFetch st cid)).updated).invoices := by
  unfold Receipting.manualReceipt
  cases hc : st.customers.find? fun c => c.id == cid with
  | none => left; simp [hc]
  | some cust =>
    by_cases he : (Receipting.manualReceiptFetch st cid).isEmpty
    · left; simp [hc, he]
    · right; simp [hc, he]

def stC3 : Store :=
  ⟨[⟨1, ['0', '7'], 1000⟩], [⟨1, 1, 1000, 0, .UNPAID, 1⟩], [], [], []⟩

/-- C3 counterexample: manualReceipt leaves a partially paid invoice
(amountPaid = 600 of invoiceAmount = 1000) with status UNPAID, violating
the claimed pure status function, which demands PPAID exactly when
0 < amountPaid < invoiceAmount and UNPAID exactly when amountPaid = 0. -/
theorem c3_counterexample :
    (Receipting.manualReceipt stC3 1 600 [11111]).1.invoices =
      [⟨1, 1, 1000, 600, .UNPAID, 1⟩] ∧
    ¬ invariantOK ⟨1, 1, 1000, 600, .UNPAID, 1⟩ := by
  refine ⟨by decide, by decide⟩

/-- C3 amended: after a MpesaPaymentSettlement settlement every invoice
satisfies the full invariant (bounds, and status the pure function of
amountPaid versus invoiceAmount with PAID/PPAID/UNPAID); after a
manualReceipt settlement the bounds 0 <= amountPaid <= invoiceAmount and
the PAID-iff-fully-covered clause still hold, but a partially paid invoice
it touched is stored with status UNPAID rather than PPAID. -/
theorem c3_invariant_amended :
    (∀ (st : Store) (cid pid : Nat) (draws : List Nat),
      (∀ inv ∈ st.invoices, invariantOK inv) →
      ∀ inv' ∈ (Receipting.MpesaPaymentSettlement st cid pid draws).1.invoices,
        invariantOK inv') ∧
    (∀ (st : Store) (cid : Nat) (amount : Int) (draws : List Nat),
      (∀ inv ∈ st.invoices, invariantOK inv) →
      ∀ inv' ∈ (Receipting.manualReceipt st cid amount draws).1.invoices,
        0 ≤ inv'.amountPaid ∧ inv'.amountPaid ≤ inv'.invoiceAmount ∧
        (inv'.status = .PAID ↔ inv'.invoiceAmount ≤ inv'.amountPaid)) ∧
    (∀ (st : Store) (cid : Nat) (amount : Int),
      (∀ inv ∈ st.invoices, invariantOK inv) →
      ∀ inv' ∈ (settleLoop .UNPAID amount (Receipting.manualReceiptFetch st cid)).updated,
        inv'.amountPaid < inv'.invoiceAmount → inv'.status = .UNPAID) := by
  refine ⟨?_, ?_, ?_⟩
  · intro st cid pid draws hinv inv' hmem
    cases hc : st.customers.find? fun c => c.id == cid with
    | none =>
      unfold Receipting.MpesaPaymentSettlement at hmem
      simp only [hc] at hmem
      exact hinv _ hmem
    | some cust =>
      cases hp : st.payments.find? fun p => p.id == pid with
      | none =>
        unfold Receipting.MpesaPaymentSettlement at hmem
        simp only [hc, hp] at hmem
        exact hinv _ hmem
      | some pay =>
        by_cases hr : pay.receipted = true
        · unfold Receipting.MpesaPaymentSettlement at hmem
          simp only [hc, hp, hr, if_true] at hmem
          exact hinv _ hmem
        · have hnr : pay.receipted = false := by simpa using hr
          rw [MpesaPaymentSettlement_invoices st cid pid draws cust pay hc hp hnr] at hmem
          rcases writeBackInvoices_mem _ _ inv' hmem with hup | horig
          · have hl := outstandingFetch_mem st cid hinv
            have hprops := settleLoop_mem_updated .PPAID (by decide) _ hl pay.amount inv' hup
            exact invariantOK_of_loopProps inv' hprops.1 hprops.2.1 hprops.2.2.1
              hprops.2.2.2.1 hprops.2.2.2.2.1 hprops.2.2.2.2.2
          · exact hinv _ (by simpa using horig)
  · intro st cid amount draws hinv inv' hmem
    rcases manualReceipt_invoices st cid amount draws with heq | heq
    · rw [heq] at hmem
      obtain ⟨a, b, c, _, _⟩ := hinv _ hmem
      exact ⟨a, b, c⟩
    · rw [heq] at hmem
      rcases writeBackInvoices_mem _ _ inv' hmem with hup | horig
      · have hl := manualReceiptFetch_mem st cid hinv
        have hprops := settleLoop_mem_updated .UNPAID (by decide) _ hl amount inv' hup
        exact ⟨hprops.1, hprops.2.1, hprops.2.2.2.1⟩
      · obtain ⟨a, b, c, _, _⟩ := hinv _ horig
        exact ⟨a, b, c⟩
  · intro st cid amount hinv inv' hup hlt
    have hl := manualReceiptFetch_mem st cid hinv
    exact (settleLoop_mem_updated .UNPAID (by decide) _ hl amount inv' hup).2.2.2.2.1 hlt

def stC3w : Store :=
  ⟨[⟨1, ['0', '7'], 1000⟩], [⟨1, 1, 1000, 0, .UNPAID, 1⟩],
   [⟨1, 600, false, none, none, none⟩], [], []⟩

/-- Witness for the amended C3: a concrete partial settlement through the
mpesa path yields a PPAID invoice satisfying the full invariant. -/
theorem c3_invariant_amended_witness :
    invariantOK ⟨1, 1, 1000, 600, .PPAID, 1⟩ :=
  c3_invariant_amended.1 stC3w 1 1 [11111] (by decide)
    ⟨1, 1, 1000, 600, .PPAID, 1⟩ (by decide)
